import Mathlib

/-!
Verification of the CRS (Colorado Revised Statutes) search utility.

The core under study is the statutory-text segmentation loop inside
`parse_crs_html` (src/CrsSearch/indexer.py, lines 26-74): a single forward
pass over a sequence of paragraph text blocks that opens a section when a
block matches the section-identifier regex, accumulates continuation blocks
into a buffer, and emits `(main_title, article, section_id, content)` records
when sections close.  The HTML extraction (BeautifulSoup) that produces the
block sequence is out of scope; the segmenter's input is the list of block
strings, in document order, plus the title string.

The second definition, `embed_text`, embeds the query-time embedding
function of src/CrsSearch/plugins/semantic_search.py with the opaque
embedding model and the JSON serializer as parameters.
-/

/-- Whitespace class for the segmenter: ASCII whitespace characters, as
accepted by the regex class in the leading part of the section pattern and
removed by string stripping in the indexer. -/
def pyIsSpace (c : Char) : Bool :=
  c = ' ' || c = '\t' || c = '\n' || c = '\r' || c = '\x0b' || c = '\x0c'

/-- Strips leading and trailing whitespace from a character list. -/
def stripChars (l : List Char) : List Char :=
  ((l.dropWhile pyIsSpace).reverse.dropWhile pyIsSpace).reverse

/-- Embeds Python `str.strip()` as applied to the joined buffer in
`parse_crs_html`. -/
def pyStrip (s : String) : String :=
  ⟨stripChars s.data⟩

/-- Embeds `"\n".join(buffer)`. -/
def joinNL : List String → String
  | [] => ""
  | s :: rest => if rest = [] then s else s ++ "\n" ++ joinNL rest

/-- Embeds the regex `^\s*(\d+-\d+-\d+(?:\.\d+)?)\.?` applied with
`re.match` to a character list: leading whitespace, then three nonempty
digit runs separated by dashes, then optionally a dot followed by a
nonempty digit run, then an optional trailing dot (which does not enter the
capture group).  Returns the first capture group on success.  Digit runs
are maximal (the regex quantifiers are greedy, and no backtracking can
help: a digit is neither a dash nor a dot). -/
def sectionMatchChars (cs0 : List Char) : Option (List Char) :=
  let cs := cs0.dropWhile pyIsSpace
  let d1 := cs.takeWhile Char.isDigit
  let r1 := cs.dropWhile Char.isDigit
  if d1 = [] then none else
  match r1 with
  | '-' :: r2 =>
    let d2 := r2.takeWhile Char.isDigit
    let r3 := r2.dropWhile Char.isDigit
    if d2 = [] then none else
    match r3 with
    | '-' :: r4 =>
      let d3 := r4.takeWhile Char.isDigit
      let r5 := r4.dropWhile Char.isDigit
      if d3 = [] then none else
      match r5 with
      | '.' :: r6 =>
        let d4 := r6.takeWhile Char.isDigit
        if d4 = [] then some (d1 ++ '-' :: d2 ++ '-' :: d3)
        else some (d1 ++ '-' :: d2 ++ '-' :: d3 ++ '.' :: d4)
      | _ => some (d1 ++ '-' :: d2 ++ '-' :: d3)
    | _ => none
  | _ => none

/-- Embeds `section_pattern.match(text)` followed by `.group(1)`
(indexer.py line 35): `some g` when the pattern matches with capture
group `g`, `none` when it does not match. -/
def section_pattern_match (s : String) : Option String :=
  (sectionMatchChars s.data).map fun cs => ⟨cs⟩

/-- Embeds the article-header test of indexer.py line 44:
`text.upper().startswith("ARTICLE") and len(text) < 50`.  Python `upper`
acts characterwise here (`Char.toUpper`), and `len` counts characters. -/
def isArticleHeader (s : String) : Bool :=
  decide ((s.data.take 7).map Char.toUpper = "ARTICLE".data) &&
    decide (s.data.length < 50)

/-- Characterwise string prefix test (Python `str.startswith`). -/
def hasPrefixStr (p s : String) : Bool :=
  decide (s.data.take p.data.length = p.data)

/-- Embeds the metadata filter of indexer.py line 65:
`text.startswith("Source:") or text.startswith("Cross references:") or
text.startswith("Law reviews:")`. -/
def isMetadata (s : String) : Bool :=
  hasPrefixStr "Source:" s || hasPrefixStr "Cross references:" s ||
    hasPrefixStr "Law reviews:" s

/-- One output record of the segmenter:
`(main_title, article, section_id, content)`. -/
structure SectionRecord where
  main_title : String
  article : String
  section_id : String
  content : String
deriving DecidableEq

/-- The mutable loop state of `parse_crs_html`: `current_article`
(initially "General Provisions"), `current_section_id` (initially None) and
`current_buffer` (initially empty). -/
structure SegState where
  current_article : String
  current_section_id : Option String
  current_buffer : List String
deriving DecidableEq

/-- One iteration of the `for p in soup.find_all("p")` loop of
`parse_crs_html` (indexer.py lines 39-67) on block text `text`: first the
article-header test (branch A, `continue`), then the section-header match
(branch B: close the previously open section - emitting its record only
when the section id is truthy and the stripped joined buffer is non-empty -
then open the new section with the buffer reset to `[text]`), else the
continuation branch (branch C: skip metadata blocks, append the rest), else
discard.  Returns the successor state and the records emitted by this
iteration, in emission order. -/
def stepBlock (main_title : String) (st : SegState) (text : String) :
    SegState × List SectionRecord :=
  if isArticleHeader text then
    ({ st with current_article := text }, [])
  else
    match section_pattern_match text with
    | some g =>
        let closed :=
          match st.current_section_id with
          | some sid =>
              if sid = "" then []
              else
                let full_content := pyStrip (joinNL st.current_buffer)
                if full_content = "" then []
                else [⟨main_title, st.current_article, sid, full_content⟩]
          | none => []
        ({ current_article := st.current_article,
           current_section_id := some g,
           current_buffer := [text] }, closed)
    | none =>
        match st.current_section_id with
        | some sid =>
            if sid = "" then (st, [])
            else if isMetadata text then (st, [])
            else ({ st with current_buffer := st.current_buffer ++ [text] }, [])
        | none => (st, [])

/-- Runs the paragraph loop over a list of blocks from a given state,
threading the state and concatenating emitted records in order. -/
def runBlocks (main_title : String) : SegState → List String → SegState × List SectionRecord
  | st, [] => (st, [])
  | st, b :: bs =>
      let p := stepBlock main_title st b
      let q := runBlocks main_title p.1 bs
      (q.1, p.2 ++ q.2)

/-- Embeds the final flush of `parse_crs_html` (indexer.py lines 69-72):
`if current_section_id and current_buffer:` then append the record built
from the stripped joined buffer, with no emptiness filter on the content. -/
def flushFinal (main_title : String) (st : SegState) : List SectionRecord :=
  match st.current_section_id with
  | some sid =>
      if sid = "" then []
      else if st.current_buffer = [] then []
      else [⟨main_title, st.current_article, sid, pyStrip (joinNL st.current_buffer)⟩]
  | none => []

/-- The initial loop state of `parse_crs_html` (indexer.py lines 29-31). -/
def initState : SegState :=
  { current_article := "General Provisions", current_section_id := none,
    current_buffer := [] }

/-- The section segmenter: the block-processing core of `parse_crs_html`
(indexer.py lines 26-74), taking the already-extracted main title and the
paragraph block texts in document order, and returning the emitted
`sections_data` records in order. -/
def parse_crs_blocks (main_title : String) (blocks : List String) :
    List SectionRecord :=
  let r := runBlocks main_title initState blocks
  r.2 ++ flushFinal main_title r.1

/-- Embeds `embed_text` from src/CrsSearch/plugins/semantic_search.py
(lines 15-21), with the opaque embedding model (`model.encode` composed
with `.tolist()`) and the JSON serializer (`json.dumps`) as parameters.
The input is `Option String` because the SQL caller may pass NULL; Python
`if not text` is true exactly on `None` and the empty string. -/
def embed_text (dumps : List Float → String)
    (model_encode : String → List Float) (text : Option String) :
    Option String :=
  match text with
  | none => none
  | some t => if t = "" then none else some (dumps (model_encode t))

/-- Folds the article-header updates of the loop over a block list: the value
of `current_article` after processing the blocks, starting from `a`.  Every
block passing the article-header test replaces the label; every other block
leaves it unchanged. -/
def artFold (a : String) : List String → String
  | [] => a
  | b :: bs => artFold (if isArticleHeader b then b else a) bs

/-- The blocks of a list that the continuation branch would append to an open
section's buffer: those that are neither article headers nor metadata. -/
def contFilter (ms : List String) : List String :=
  ms.filter fun b => !isArticleHeader b && !isMetadata b

/-- Invariant of the loop state: either no section is open, or the open
section's buffer starts with the header block that opened it, whose pattern
match produced the section identifier. -/
def GoodState (st : SegState) : Prop :=
  st.current_section_id = none ∨
    ∃ i hb rest, st.current_section_id = some i ∧
      st.current_buffer = hb :: rest ∧ section_pattern_match hb = some i

/-- The identifier of the currently open section, as a list: empty when no
section is open, a singleton otherwise. -/
def pendingIds (st : SegState) : List String :=
  match st.current_section_id with
  | some i => [i]
  | none => []

/-- The records that the mid-stream close inside branch B of the loop emits
from state `st` (the `closed` list of `stepBlock`). -/
def closeRecs (t : String) (st : SegState) : List SectionRecord :=
  match st.current_section_id with
  | some sid =>
      if sid = "" then []
      else
        if pyStrip (joinNL st.current_buffer) = "" then []
        else [⟨t, st.current_article, sid, pyStrip (joinNL st.current_buffer)⟩]
  | none => []

lemma pyIsSpace_cases {c : Char} (h : pyIsSpace c = true) :
    c = ' ' ∨ c = '\t' ∨ c = '\n' ∨ c = '\r' ∨ c = '\x0b' ∨ c = '\x0c' := by
  simp [pyIsSpace] at h
  tauto

lemma space_not_digit {c : Char} (h : pyIsSpace c = true) : c.isDigit = false := by
  rcases pyIsSpace_cases h with h' | h' | h' | h' | h' | h' <;> subst h' <;> decide

lemma space_toUpper {c : Char} (h : pyIsSpace c = true) : c.toUpper = c := by
  rcases pyIsSpace_cases h with h' | h' | h' | h' | h' | h' <;> subst h' <;> decide

lemma isDigit_toNat_le {c : Char} (h : c.isDigit = true) : c.toNat ≤ 57 := by
  simp [Char.isDigit] at h
  exact UInt32.toNat_le_of_le (by decide) h.2

lemma toUpper_of_toNat_le {c : Char} (h : c.toNat ≤ 57) : c.toUpper = c := by
  unfold Char.toUpper
  simp only []
  rw [if_neg]
  omega

lemma digit_not_space {c : Char} (h : c.isDigit = true) : pyIsSpace c = false := by
  cases hs : pyIsSpace c
  · rfl
  · rw [space_not_digit hs] at h
    cases h

lemma takeWhile_ne_nil_head {p : Char → Bool} {l : List Char}
    (h : l.takeWhile p ≠ []) : ∃ x t, l = x :: t ∧ p x = true := by
  cases l with
  | nil => simp at h
  | cons x t =>
    refine ⟨x, t, rfl, ?_⟩
    cases hx : p x
    · rw [List.takeWhile_cons_of_neg (by simp [hx])] at h
      exact absurd rfl h
    · rfl

lemma head_of_take_cons {l t : List Char} {c : Char} {n : Nat}
    (h : l.take n = c :: t) : ∃ r, l = c :: r := by
  cases l with
  | nil => simp at h
  | cons x r =>
    cases n with
    | zero => simp at h
    | succ m =>
      simp only [List.take] at h
      exact ⟨r, by rw [(List.cons.injEq .. |>.mp h).1]⟩

lemma match_inner {s : String} {g : String}
    (h : section_pattern_match s = some g) :
    (s.data.dropWhile pyIsSpace).takeWhile Char.isDigit ≠ [] := by
  unfold section_pattern_match at h
  cases hm : sectionMatchChars s.data with
  | none => rw [hm] at h; cases h
  | some gl =>
    unfold sectionMatchChars at hm
    simp only [] at hm
    intro hnil
    rw [if_pos hnil] at hm
    cases hm

lemma match_head_lemma {s g : String} (h : section_pattern_match s = some g) :
    ∃ c t, s.data = c :: t ∧ (pyIsSpace c = true ∨ c.isDigit = true) := by
  have hd1 := match_inner h
  cases hl : s.data with
  | nil => rw [hl] at hd1; simp at hd1
  | cons c t =>
    refine ⟨c, t, rfl, ?_⟩
    cases hs : pyIsSpace c
    · right
      rw [hl] at hd1
      rw [List.dropWhile_cons_of_neg (by simp [hs])] at hd1
      obtain ⟨x, t', hx, hpx⟩ := takeWhile_ne_nil_head hd1
      rw [(List.cons.injEq .. |>.mp hx).1]
      exact hpx
    · left; rfl

lemma article_head_lemma {s : String} (h : isArticleHeader s = true) :
    ∃ c t, s.data = c :: t ∧ c.toUpper = 'A' := by
  unfold isArticleHeader at h
  simp only [Bool.and_eq_true, decide_eq_true_eq] at h
  obtain ⟨h7, _⟩ := h
  cases hl : s.data with
  | nil => rw [hl] at h7; simp at h7
  | cons c t =>
    refine ⟨c, t, rfl, ?_⟩
    rw [hl] at h7
    cases hn : (7 : Nat) with
    | zero => cases hn
    | succ m =>
      simp only [List.take, List.map] at h7
      exact (List.cons.injEq .. |>.mp h7).1

lemma article_no_match {s : String} (h : isArticleHeader s = true) :
    section_pattern_match s = none := by
  cases hm : section_pattern_match s with
  | none => rfl
  | some g =>
    exfalso
    obtain ⟨c, t, hl, hA⟩ := article_head_lemma h
    obtain ⟨c', t', hl', hd⟩ := match_head_lemma hm
    rw [hl] at hl'
    obtain ⟨hc, -⟩ := List.cons.injEq .. |>.mp hl'
    subst hc
    rcases hd with hs | hdig
    · rw [space_toUpper hs] at hA
      subst hA
      cases hs
    · rw [toUpper_of_toNat_le (isDigit_toNat_le hdig)] at hA
      subst hA
      cases hdig

lemma meta_head {s : String} (h : isMetadata s = true) :
    ∃ c t, s.data = c :: t ∧ (c = 'S' ∨ c = 'C' ∨ c = 'L') := by
  unfold isMetadata hasPrefixStr at h
  simp only [Bool.or_eq_true, decide_eq_true_eq] at h
  cases h with
  | inl h =>
    cases h with
    | inl h =>
      have h' : s.data.take "Source:".data.length = 'S' :: "ource:".data := h
      obtain ⟨r, hr⟩ := head_of_take_cons h'
      exact ⟨'S', r, hr, Or.inl rfl⟩
    | inr h =>
      have h' : s.data.take "Cross references:".data.length =
          'C' :: "ross references:".data := h
      obtain ⟨r, hr⟩ := head_of_take_cons h'
      exact ⟨'C', r, hr, Or.inr (Or.inl rfl)⟩
  | inr h =>
    have h' : s.data.take "Law reviews:".data.length =
        'L' :: "aw reviews:".data := h
    obtain ⟨r, hr⟩ := head_of_take_cons h'
    exact ⟨'L', r, hr, Or.inr (Or.inr rfl)⟩

lemma meta_not_article {s : String} (h : isMetadata s = true) :
    isArticleHeader s = false := by
  cases ha : isArticleHeader s
  · rfl
  · exfalso
    obtain ⟨c, t, hl, hA⟩ := article_head_lemma ha
    obtain ⟨c', t', hl', hd⟩ := meta_head h
    rw [hl] at hl'
    obtain ⟨hc, -⟩ := List.cons.injEq .. |>.mp hl'
    subst hc
    rcases hd with h' | h' | h' <;> subst h' <;> cases hA

lemma meta_no_match {s : String} (h : isMetadata s = true) :
    section_pattern_match s = none := by
  cases hm : section_pattern_match s with
  | none => rfl
  | some g =>
    exfalso
    obtain ⟨c, t, hl, hd⟩ := match_head_lemma hm
    obtain ⟨c', t', hl', hc⟩ := meta_head h
    rw [hl] at hl'
    obtain ⟨he, -⟩ := List.cons.injEq .. |>.mp hl'
    subst he
    rcases hc with h' | h' | h' <;> subst h' <;>
      rcases hd with h'' | h'' <;> cases h''

lemma sectionMatchChars_shape {cs gl : List Char}
    (h : sectionMatchChars cs = some gl) :
    ∃ d1 d2 d3 tail,
      d1 ≠ [] ∧ d2 ≠ [] ∧ d3 ≠ [] ∧
      (∀ c ∈ d1, c.isDigit = true) ∧ (∀ c ∈ d2, c.isDigit = true) ∧
      (∀ c ∈ d3, c.isDigit = true) ∧
      gl = d1 ++ '-' :: (d2 ++ '-' :: (d3 ++ tail)) ∧
      (tail = [] ∨ ∃ d4, d4 ≠ [] ∧ (∀ c ∈ d4, c.isDigit = true) ∧
        tail = '.' :: d4) := by
  unfold sectionMatchChars at h
  simp only [] at h
  split at h
  · exact absurd h (by simp)
  · next hd1 =>
    split at h
    · next r2 =>
      split at h
      · exact absurd h (by simp)
      · next hd2 =>
        split at h
        · next r4 =>
          split at h
          · exact absurd h (by simp)
          · next hd3 =>
            split at h
            · next r6 =>
              split at h
              · refine ⟨_, _, _, [], hd1, hd2, hd3,
                  fun c hc => List.mem_takeWhile_imp hc,
                  fun c hc => List.mem_takeWhile_imp hc,
                  fun c hc => List.mem_takeWhile_imp hc, ?_, Or.inl rfl⟩
                have h' := Option.some.inj h
                simp [← h']
              · next hd4 =>
                refine ⟨_, _, _, '.' :: _, hd1, hd2, hd3,
                  fun c hc => List.mem_takeWhile_imp hc,
                  fun c hc => List.mem_takeWhile_imp hc,
                  fun c hc => List.mem_takeWhile_imp hc, ?_,
                  Or.inr ⟨_, hd4, fun c hc => List.mem_takeWhile_imp hc, rfl⟩⟩
                have h' := Option.some.inj h
                simp [← h']
            · refine ⟨_, _, _, [], hd1, hd2, hd3,
                fun c hc => List.mem_takeWhile_imp hc,
                fun c hc => List.mem_takeWhile_imp hc,
                fun c hc => List.mem_takeWhile_imp hc, ?_, Or.inl rfl⟩
              have h' := Option.some.inj h
              simp [← h']
        · exact absurd h (by simp)
    · exact absurd h (by simp)

lemma mk_ne_empty {l : List Char} (h : l ≠ []) : (⟨l⟩ : String) ≠ "" :=
  fun he => h (congrArg String.data he)

lemma match_mk {s g : String} (h : section_pattern_match s = some g) :
    ∃ gl, sectionMatchChars s.data = some gl ∧ g = ⟨gl⟩ := by
  unfold section_pattern_match at h
  cases hm : sectionMatchChars s.data with
  | none => rw [hm] at h; cases h
  | some gl =>
    rw [hm] at h
    exact ⟨gl, rfl, (Option.some.inj h).symm⟩

lemma match_g_ne {s g : String} (h : section_pattern_match s = some g) :
    g ≠ "" := by
  obtain ⟨gl, hgl, rfl⟩ := match_mk h
  obtain ⟨d1, d2, d3, tail, hd1, -, -, -, -, -, hshape, -⟩ :=
    sectionMatchChars_shape hgl
  apply mk_ne_empty
  rw [hshape]
  simp [hd1]

lemma match_has_nonspace {s g : String}
    (h : section_pattern_match s = some g) :
    ∃ c ∈ s.data, pyIsSpace c = false := by
  have hd1 := match_inner h
  obtain ⟨x, t, hx, hpx⟩ := takeWhile_ne_nil_head hd1
  refine ⟨x, ?_, digit_not_space hpx⟩
  have hmem : x ∈ s.data.dropWhile pyIsSpace := by rw [hx]; exact List.mem_cons_self x t
  exact (List.dropWhile_suffix pyIsSpace).subset hmem

lemma mem_dropWhile_of_mem {p : Char → Bool} {l : List Char} {c : Char}
    (hc : c ∈ l) (hp : p c = false) : c ∈ l.dropWhile p := by
  induction l with
  | nil => cases hc
  | cons x t ih =>
    cases hx : p x
    · rw [List.dropWhile_cons_of_neg (by simp [hx])]
      exact hc
    · rw [List.dropWhile_cons_of_pos (by simp [hx])]
      rcases List.mem_cons.mp hc with rfl | hct
      · rw [hx] at hp; cases hp
      · exact ih hct

lemma mem_stripChars {l : List Char} {c : Char} (hc : c ∈ l)
    (hp : pyIsSpace c = false) : c ∈ stripChars l := by
  unfold stripChars
  rw [List.mem_reverse]
  apply mem_dropWhile_of_mem _ hp
  rw [List.mem_reverse]
  exact mem_dropWhile_of_mem hc hp

lemma stripChars_ne_nil {l : List Char} {c : Char} (hc : c ∈ l)
    (hp : pyIsSpace c = false) : stripChars l ≠ [] := by
  intro h
  have := mem_stripChars hc hp
  rw [h] at this
  cases this

lemma stripChars_append_of_nonspace {l t : List Char} {c : Char}
    (hc : c ∈ l) (hp : pyIsSpace c = false) :
    ∃ u, stripChars (l ++ t) = stripChars l ++ u := by
  have hA : c ∈ l.dropWhile pyIsSpace := mem_dropWhile_of_mem hc hp
  have hAne : l.dropWhile pyIsSpace ≠ [] := by
    intro h; rw [h] at hA; cases hA
  have hdw : (l ++ t).dropWhile pyIsSpace = l.dropWhile pyIsSpace ++ t := by
    rw [List.dropWhile_append, if_neg (by simpa [List.isEmpty_iff] using hAne)]
  unfold stripChars
  rw [hdw, List.reverse_append]
  rw [List.dropWhile_append]
  by_cases hE : (t.reverse.dropWhile pyIsSpace).isEmpty
  · rw [if_pos hE]
    exact ⟨[], by simp⟩
  · rw [if_neg hE]
    refine ⟨(((l.dropWhile pyIsSpace).reverse.takeWhile pyIsSpace).reverse ++
      (t.reverse.dropWhile pyIsSpace).reverse), ?_⟩
    rw [List.reverse_append]
    conv_lhs =>
      rw [← List.takeWhile_append_dropWhile (p := pyIsSpace)
        (l := (l.dropWhile pyIsSpace).reverse)]
    rw [List.reverse_append]
    simp [List.append_assoc]

lemma string_data_append (a b : String) : (a ++ b).data = a.data ++ b.data :=
  rfl

lemma joinNL_cons_data (s : String) (rest : List String) :
    ∃ td, (joinNL (s :: rest)).data = s.data ++ td := by
  unfold joinNL
  by_cases h : rest = []
  · rw [if_pos h]
    exact ⟨[], by simp⟩
  · rw [if_neg h]
    refine ⟨'\n' :: (joinNL rest).data, ?_⟩
    rw [string_data_append, string_data_append]
    simp [List.append_assoc]

lemma content_of_buffer (hb : String) {g : String} (rest : List String)
    (hm : section_pattern_match hb = some g) :
    (∃ u, pyStrip (joinNL (hb :: rest)) = pyStrip hb ++ u) ∧
      pyStrip hb ≠ "" ∧ pyStrip (joinNL (hb :: rest)) ≠ "" := by
  obtain ⟨c, hc, hcns⟩ := match_has_nonspace hm
  obtain ⟨td, htd⟩ := joinNL_cons_data hb rest
  obtain ⟨u', hu'⟩ := stripChars_append_of_nonspace (t := td) hc hcns
  have hcontent : pyStrip (joinNL (hb :: rest)) = pyStrip hb ++ ⟨u'⟩ := by
    unfold pyStrip
    rw [htd, hu']
    rfl
  refine ⟨⟨⟨u'⟩, hcontent⟩, mk_ne_empty (stripChars_ne_nil hc hcns), ?_⟩
  rw [hcontent]
  intro he
  have : (pyStrip hb ++ (⟨u'⟩ : String)).data = [] := congrArg String.data he
  rw [string_data_append] at this
  exact mk_ne_empty (stripChars_ne_nil hc hcns)
    (by
      apply congrArg String.mk
      exact (List.append_eq_nil.mp this).1)

lemma stepBlock_article {t : String} {st : SegState} {b : String}
    (h : isArticleHeader b = true) :
    stepBlock t st b = ({ st with current_article := b }, []) := by
  unfold stepBlock
  rw [if_pos h]

lemma not_article_of_match {b g : String}
    (hm : section_pattern_match b = some g) : isArticleHeader b = false := by
  cases hh : isArticleHeader b
  · rfl
  · rw [article_no_match hh] at hm
    cases hm

lemma stepBlock_open {t : String} {st : SegState} {b g : String}
    (hm : section_pattern_match b = some g) :
    stepBlock t st b =
      ({ current_article := st.current_article, current_section_id := some g,
         current_buffer := [b] }, closeRecs t st) := by
  have ha := not_article_of_match hm
  unfold stepBlock closeRecs
  rw [if_neg (by simp [ha]), hm]

lemma stepBlock_cont_none {t : String} {st : SegState} {b : String}
    (ha : isArticleHeader b = false) (hm : section_pattern_match b = none)
    (hsid : st.current_section_id = none) :
    stepBlock t st b = (st, []) := by
  unfold stepBlock
  rw [if_neg (by simp [ha]), hm, hsid]

lemma stepBlock_cont_meta {t : String} {st : SegState} {b i : String}
    (ha : isArticleHeader b = false) (hm : section_pattern_match b = none)
    (hsid : st.current_section_id = some i) (hine : i ≠ "")
    (hmeta : isMetadata b = true) :
    stepBlock t st b = (st, []) := by
  unfold stepBlock
  rw [if_neg (by simp [ha]), hm, hsid]
  simp only []
  rw [if_neg hine, if_pos hmeta]

lemma stepBlock_cont_app {t : String} {st : SegState} {b i : String}
    (ha : isArticleHeader b = false) (hm : section_pattern_match b = none)
    (hsid : st.current_section_id = some i) (hine : i ≠ "")
    (hmeta : isMetadata b = false) :
    stepBlock t st b =
      ({ st with current_buffer := st.current_buffer ++ [b] }, []) := by
  unfold stepBlock
  rw [if_neg (by simp [ha]), hm, hsid]
  simp only []
  rw [if_neg hine, if_neg (by simp [hmeta])]

lemma closeRecs_good {t : String} {st : SegState} (h : GoodState st) :
    closeRecs t st = (pendingIds st).map
      (fun i => ⟨t, st.current_article, i, pyStrip (joinNL st.current_buffer)⟩) := by
  rcases h with hnone | ⟨i, hb, rest, hsid, hbuf, hmb⟩
  · unfold closeRecs pendingIds
    rw [hnone]
    rfl
  · unfold closeRecs pendingIds
    rw [hsid]
    simp only []
    rw [hbuf, if_neg (match_g_ne hmb),
      if_neg ((content_of_buffer hb rest hmb).2.2)]
    rfl

lemma flushFinal_good {t : String} {st : SegState} (h : GoodState st) :
    flushFinal t st = (pendingIds st).map
      (fun i => ⟨t, st.current_article, i, pyStrip (joinNL st.current_buffer)⟩) := by
  rcases h with hnone | ⟨i, hb, rest, hsid, hbuf, hmb⟩
  · unfold flushFinal pendingIds
    rw [hnone]
    rfl
  · unfold flushFinal pendingIds
    rw [hsid]
    simp only []
    rw [hbuf, if_neg (match_g_ne hmb), if_neg (by simp)]
    rfl

lemma runBlocks_nil (t : String) (st : SegState) :
    runBlocks t st [] = (st, []) := rfl

lemma runBlocks_cons (t : String) (st : SegState) (b : String)
    (bs : List String) :
    runBlocks t st (b :: bs) =
      ((runBlocks t (stepBlock t st b).1 bs).1,
        (stepBlock t st b).2 ++ (runBlocks t (stepBlock t st b).1 bs).2) :=
  rfl

lemma runBlocks_append (t : String) (xs ys : List String) (st : SegState) :
    runBlocks t st (xs ++ ys) =
      ((runBlocks t (runBlocks t st xs).1 ys).1,
        (runBlocks t st xs).2 ++ (runBlocks t (runBlocks t st xs).1 ys).2) := by
  induction xs generalizing st with
  | nil => simp [runBlocks_nil]
  | cons x xs ih =>
    simp only [List.cons_append, runBlocks_cons]
    rw [ih]
    simp [List.append_assoc]

lemma artFold_cons (a b : String) (bs : List String) :
    artFold a (b :: bs) = artFold (if isArticleHeader b then b else a) bs :=
  rfl

lemma closeRecs_ids {t : String} {st : SegState} (h : GoodState st) :
    (closeRecs t st).map SectionRecord.section_id = pendingIds st := by
  rw [closeRecs_good h]
  simp [Function.comp_def]

lemma runBlocks_master (t : String) (bs : List String) :
    ∀ st : SegState, GoodState st →
      GoodState (runBlocks t st bs).1 ∧
      (runBlocks t st bs).1.current_article = artFold st.current_article bs ∧
      ((runBlocks t st bs).2.map SectionRecord.section_id)
          ++ pendingIds (runBlocks t st bs).1
        = pendingIds st ++ bs.filterMap section_pattern_match ∧
      (∀ r ∈ (runBlocks t st bs).2,
        r.main_title = t ∧ r.content ≠ "" ∧
        (∃ hb, section_pattern_match hb = some r.section_id ∧
          (∃ u, r.content = pyStrip hb ++ u) ∧
          (hb ∈ bs ∨ ∃ rb, st.current_buffer = hb :: rb)) ∧
        (r.article = st.current_article ∨
          ∃ a ∈ bs, isArticleHeader a = true ∧ r.article = a)) ∧
      (∀ x ∈ (runBlocks t st bs).1.current_buffer,
        x ∈ bs ∨ x ∈ st.current_buffer) := by
  induction bs with
  | nil =>
    intro st hG
    refine ⟨hG, rfl, by simp [runBlocks_nil], ?_, ?_⟩
    · intro r hr
      simp [runBlocks_nil] at hr
    · intro x hx
      exact Or.inr hx
  | cons b bs ih =>
    intro st hG
    by_cases hart : isArticleHeader b = true
    · -- branch A: article header
      rw [runBlocks_cons, stepBlock_article hart]
      dsimp only
      obtain ⟨ihG, ihart, ihids, ihrec, ihbuf⟩ :=
        ih { st with current_article := b } (by
          rcases hG with h | ⟨i, hb0, rb0, h1, h2, h3⟩
          · exact Or.inl h
          · exact Or.inr ⟨i, hb0, rb0, h1, h2, h3⟩)
      refine ⟨ihG, ?_, ?_, ?_, ?_⟩
      · rw [artFold_cons, if_pos hart]
        exact ihart
      · rw [List.filterMap_cons_none (article_no_match hart)]
        exact ihids
      · intro r hr
        obtain ⟨h1, h2, ⟨hb, hm, hu, hloc⟩, hartp⟩ := ihrec r hr
        refine ⟨h1, h2, ⟨hb, hm, hu, ?_⟩, ?_⟩
        · rcases hloc with h | h
          · exact Or.inl (List.mem_cons_of_mem b h)
          · exact Or.inr h
        · rcases hartp with h | ⟨a, ha1, ha2, ha3⟩
          · exact Or.inr ⟨b, List.mem_cons_self b bs, hart, h⟩
          · exact Or.inr ⟨a, List.mem_cons_of_mem b ha1, ha2, ha3⟩
      · intro x hx
        rcases ihbuf x hx with h | h
        · exact Or.inl (List.mem_cons_of_mem b h)
        · exact Or.inr h
    · cases hm : section_pattern_match b with
      | some g =>
        -- branch B: section header, close previous and open new
        rw [runBlocks_cons, stepBlock_open hm]
        dsimp only
        obtain ⟨ihG, ihart, ihids, ihrec, ihbuf⟩ :=
          ih { current_article := st.current_article,
               current_section_id := some g, current_buffer := [b] }
            (Or.inr ⟨g, b, [], rfl, rfl, hm⟩)
        refine ⟨ihG, ?_, ?_, ?_, ?_⟩
        · rw [artFold_cons, if_neg (by simp [hart])]
          exact ihart
        · rw [List.filterMap_cons_some hm, List.map_append,
            List.append_assoc, ihids, closeRecs_ids hG]
          rfl
        · intro r hr
          rcases List.mem_append.mp hr with hrc | hrq
          · -- emitted by the mid-stream close
            rcases hG with hnone | ⟨i, hb0, rb0, hsid, hbuf, hmb⟩
            · rw [closeRecs_good (Or.inl hnone)] at hrc
              unfold pendingIds at hrc
              rw [hnone] at hrc
              simp at hrc
            · rw [closeRecs_good (Or.inr ⟨i, hb0, rb0, hsid, hbuf, hmb⟩)] at hrc
              unfold pendingIds at hrc
              rw [hsid] at hrc
              simp only [List.map_cons, List.map_nil, List.mem_singleton] at hrc
              subst hrc
              obtain ⟨hu, hne, hcne⟩ := content_of_buffer hb0 rb0 hmb
              refine ⟨rfl, by rw [hbuf]; exact hcne,
                ⟨hb0, hmb, by rw [hbuf]; exact hu, Or.inr ⟨rb0, hbuf⟩⟩,
                Or.inl rfl⟩
          · obtain ⟨h1, h2, ⟨hb, hmm, hu, hloc⟩, hartp⟩ := ihrec r hrq
            refine ⟨h1, h2, ⟨hb, hmm, hu, ?_⟩, ?_⟩
            · rcases hloc with h | ⟨rb, hrb⟩
              · exact Or.inl (List.mem_cons_of_mem b h)
              · have hbb : hb = b := (List.cons.injEq .. |>.mp hrb.symm).1
                subst hbb
                exact Or.inl (List.mem_cons_self hb bs)
            · rcases hartp with h | ⟨a, ha1, ha2, ha3⟩
              · exact Or.inl h
              · exact Or.inr ⟨a, List.mem_cons_of_mem b ha1, ha2, ha3⟩
        · intro x hx
          rcases ihbuf x hx with h | h
          · exact Or.inl (List.mem_cons_of_mem b h)
          · have hxb : x = b := List.mem_singleton.mp h
            subst hxb
            exact Or.inl (List.mem_cons_self x bs)
      | none =>
        -- branch C: continuation or discard
        have hartf : isArticleHeader b = false := by
          cases h : isArticleHeader b
          · rfl
          · exact absurd h hart
        rcases hG with hnone | ⟨i, hb0, rb0, hsid, hbuf, hmb⟩
        · rw [runBlocks_cons, stepBlock_cont_none hartf hm hnone]
          dsimp only
          obtain ⟨ihG, ihart, ihids, ihrec, ihbuf⟩ := ih st (Or.inl hnone)
          refine ⟨ihG, ?_, ?_, ?_, ?_⟩
          · rw [artFold_cons, if_neg (by simp [hart])]
            exact ihart
          · rw [List.filterMap_cons_none hm]
            exact ihids
          · intro r hr
            rw [List.nil_append] at hr
            obtain ⟨h1, h2, ⟨hb, hmm, hu, hloc⟩, hartp⟩ := ihrec r hr
            refine ⟨h1, h2, ⟨hb, hmm, hu, ?_⟩, ?_⟩
            · rcases hloc with h | h
              · exact Or.inl (List.mem_cons_of_mem b h)
              · exact Or.inr h
            · rcases hartp with h | ⟨a, ha1, ha2, ha3⟩
              · exact Or.inl h
              · exact Or.inr ⟨a, List.mem_cons_of_mem b ha1, ha2, ha3⟩
          · intro x hx
            rcases ihbuf x hx with h | h
            · exact Or.inl (List.mem_cons_of_mem b h)
            · exact Or.inr h
        · have hine := match_g_ne hmb
          by_cases hmeta : isMetadata b = true
          · rw [runBlocks_cons, stepBlock_cont_meta hartf hm hsid hine hmeta]
            dsimp only
            obtain ⟨ihG, ihart, ihids, ihrec, ihbuf⟩ :=
              ih st (Or.inr ⟨i, hb0, rb0, hsid, hbuf, hmb⟩)
            refine ⟨ihG, ?_, ?_, ?_, ?_⟩
            · rw [artFold_cons, if_neg (by simp [hart])]
              exact ihart
            · rw [List.filterMap_cons_none hm]
              exact ihids
            · intro r hr
              rw [List.nil_append] at hr
              obtain ⟨h1, h2, ⟨hb, hmm, hu, hloc⟩, hartp⟩ := ihrec r hr
              refine ⟨h1, h2, ⟨hb, hmm, hu, ?_⟩, ?_⟩
              · rcases hloc with h | h
                · exact Or.inl (List.mem_cons_of_mem b h)
                · exact Or.inr h
              · rcases hartp with h | ⟨a, ha1, ha2, ha3⟩
                · exact Or.inl h
                · exact Or.inr ⟨a, List.mem_cons_of_mem b ha1, ha2, ha3⟩
            · intro x hx
              rcases ihbuf x hx with h | h
              · exact Or.inl (List.mem_cons_of_mem b h)
              · exact Or.inr h
          · have hmetaf : isMetadata b = false := by
              cases h : isMetadata b
              · rfl
              · exact absurd h hmeta
            rw [runBlocks_cons, stepBlock_cont_app hartf hm hsid hine hmetaf]
            dsimp only
            obtain ⟨ihG, ihart, ihids, ihrec, ihbuf⟩ :=
              ih { st with current_buffer := st.current_buffer ++ [b] }
                (Or.inr ⟨i, hb0, rb0 ++ [b], hsid, by rw [hbuf]; rfl, hmb⟩)
            refine ⟨ihG, ?_, ?_, ?_, ?_⟩
            · rw [artFold_cons, if_neg (by simp [hart])]
              exact ihart
            · rw [List.filterMap_cons_none hm]
              exact ihids
            · intro r hr
              rw [List.nil_append] at hr
              obtain ⟨h1, h2, ⟨hb, hmm, hu, hloc⟩, hartp⟩ := ihrec r hr
              refine ⟨h1, h2, ⟨hb, hmm, hu, ?_⟩, ?_⟩
              · rcases hloc with h | ⟨rb, hrb⟩
                · exact Or.inl (List.mem_cons_of_mem b h)
                · simp only [] at hrb
                  rw [hbuf] at hrb
                  have hbb : hb = hb0 := (List.cons.injEq .. |>.mp hrb.symm).1
                  subst hbb
                  exact Or.inr ⟨rb0, hbuf⟩
              · rcases hartp with h | ⟨a, ha1, ha2, ha3⟩
                · exact Or.inl h
                · exact Or.inr ⟨a, List.mem_cons_of_mem b ha1, ha2, ha3⟩
            · intro x hx
              rcases ihbuf x hx with h | h
              · exact Or.inl (List.mem_cons_of_mem b h)
              · simp only [] at h
                rcases List.mem_append.mp h with h' | h'
                · exact Or.inr h'
                · have hxb : x = b := List.mem_singleton.mp h'
                  subst hxb
                  exact Or.inl (List.mem_cons_self x bs)

lemma GoodState_init : GoodState initState := Or.inl rfl

lemma parse_eq (t : String) (bs : List String) :
    parse_crs_blocks t bs =
      (runBlocks t initState bs).2 ++
        flushFinal t (runBlocks t initState bs).1 := rfl

lemma map_mk_ids (l : List String) (t a c : String) :
    (l.map fun i => (⟨t, a, i, c⟩ : SectionRecord)).map
      SectionRecord.section_id = l := by
  simp [Function.comp_def]

lemma parse_ids (t : String) (bs : List String) :
    (parse_crs_blocks t bs).map SectionRecord.section_id =
      bs.filterMap section_pattern_match := by
  obtain ⟨hG, -, hids, -, -⟩ := runBlocks_master t bs initState GoodState_init
  rw [parse_eq, List.map_append, flushFinal_good hG, map_mk_ids]
  simpa using hids

lemma artFold_cases (a : String) (bs : List String) :
    artFold a bs = a ∨ ∃ b ∈ bs, isArticleHeader b = true ∧ artFold a bs = b := by
  induction bs generalizing a with
  | nil => exact Or.inl rfl
  | cons b bs ih =>
    rw [artFold_cons]
    by_cases hart : isArticleHeader b = true
    · rw [if_pos hart]
      rcases ih b with h | ⟨a', h1, h2, h3⟩
      · exact Or.inr ⟨b, List.mem_cons_self b bs, hart, h⟩
      · exact Or.inr ⟨a', List.mem_cons_of_mem b h1, h2, h3⟩
    · rw [if_neg hart]
      rcases ih a with h | ⟨a', h1, h2, h3⟩
      · exact Or.inl h
      · exact Or.inr ⟨a', List.mem_cons_of_mem b h1, h2, h3⟩

lemma artFold_no_article (a : String) {bs : List String}
    (h : ∀ b ∈ bs, isArticleHeader b = false) : artFold a bs = a := by
  induction bs generalizing a with
  | nil => rfl
  | cons b bs ih =>
    rw [artFold_cons, if_neg (by simp [h b (List.mem_cons_self b bs)])]
    exact ih a fun x hx => h x (List.mem_cons_of_mem b hx)

lemma parse_records (t : String) (bs : List String) :
    ∀ r ∈ parse_crs_blocks t bs,
      r.main_title = t ∧ r.content ≠ "" ∧
      (∃ hb, hb ∈ bs ∧ section_pattern_match hb = some r.section_id ∧
        ∃ u, r.content = pyStrip hb ++ u) ∧
      (r.article = "General Provisions" ∨
        ∃ a ∈ bs, isArticleHeader a = true ∧ r.article = a) := by
  obtain ⟨hG, hart2, -, hrec, hbuf⟩ := runBlocks_master t bs initState GoodState_init
  intro r hr
  rw [parse_eq] at hr
  rcases List.mem_append.mp hr with h | h
  · obtain ⟨h1, h2, ⟨hb, hmm, hu, hloc⟩, hartp⟩ := hrec r h
    refine ⟨h1, h2, ⟨hb, ?_, hmm, hu⟩, hartp⟩
    rcases hloc with h' | ⟨rb, hrb⟩
    · exact h'
    · exact absurd hrb (by simp [initState])
  · rcases hG with hnone | ⟨i, hb0, rb0, hsid, hbufe, hmb⟩
    · rw [flushFinal_good (Or.inl hnone)] at h
      unfold pendingIds at h
      rw [hnone] at h
      simp at h
    · rw [flushFinal_good (Or.inr ⟨i, hb0, rb0, hsid, hbufe, hmb⟩)] at h
      unfold pendingIds at h
      rw [hsid] at h
      simp only [List.map_cons, List.map_nil, List.mem_singleton] at h
      subst h
      obtain ⟨hu, hne, hcne⟩ := content_of_buffer hb0 rb0 hmb
      have hbmem : hb0 ∈ bs := by
        have hmem : hb0 ∈ (runBlocks t initState bs).1.current_buffer := by
          rw [hbufe]
          exact List.mem_cons_self _ _
        rcases hbuf hb0 hmem with h' | h'
        · exact h'
        · exact absurd h' (by simp [initState])
      refine ⟨rfl, by rw [hbufe]; exact hcne,
        ⟨hb0, hbmem, hmb, by rw [hbufe]; exact hu⟩, ?_⟩
      show (runBlocks t initState bs).1.current_article = _ ∨ _
      rw [hart2]
      rcases artFold_cases "General Provisions" bs with h' | ⟨a', h1, h2, h3⟩
      · exact Or.inl h'
      · exact Or.inr ⟨a', h1, h2, h3⟩

lemma countMatches_filterMap (bs : List String) :
    (bs.filterMap section_pattern_match).length =
      (bs.filter fun b => (section_pattern_match b).isSome).length := by
  induction bs with
  | nil => rfl
  | cons b bs ih =>
    cases h : section_pattern_match b with
    | none => simp [List.filterMap_cons, List.filter_cons, h, ih]
    | some g => simp [List.filterMap_cons, List.filter_cons, h, ih]

lemma joinNL_singleton (s : String) : joinNL [s] = s := by
  unfold joinNL
  rw [if_pos rfl]

lemma contFilter_nil : contFilter [] = [] := rfl

lemma contFilter_cons_article {b : String} (ms : List String)
    (h : isArticleHeader b = true) : contFilter (b :: ms) = contFilter ms := by
  unfold contFilter
  rw [List.filter_cons, if_neg (by simp [h])]

lemma contFilter_cons_meta {b : String} (ms : List String)
    (h : isMetadata b = true) : contFilter (b :: ms) = contFilter ms := by
  unfold contFilter
  rw [List.filter_cons, if_neg (by simp [h])]

lemma contFilter_cons_keep {b : String} (ms : List String)
    (ha : isArticleHeader b = false) (hm : isMetadata b = false) :
    contFilter (b :: ms) = b :: contFilter ms := by
  unfold contFilter
  rw [List.filter_cons, if_pos (by simp [ha, hm])]

lemma contFilter_all_meta {ms : List String}
    (h : ∀ m ∈ ms, isMetadata m = true) : contFilter ms = [] := by
  induction ms with
  | nil => rfl
  | cons b ms ih =>
    rw [contFilter_cons_meta ms (h b (List.mem_cons_self b ms))]
    exact ih fun m hm => h m (List.mem_cons_of_mem b hm)

lemma artFold_after_article {a : String} {m2 : List String}
    (ha : isArticleHeader a = true)
    (h2 : ∀ b ∈ m2, isArticleHeader b = false) :
    ∀ (m1 : List String) (x : String), artFold x (m1 ++ a :: m2) = a := by
  intro m1
  induction m1 with
  | nil =>
    intro x
    rw [List.nil_append, artFold_cons, if_pos ha]
    exact artFold_no_article a h2
  | cons b m1 ih =>
    intro x
    rw [List.cons_append, artFold_cons]
    exact ih _

lemma runBlocks_no_match (t : String) (ms : List String) :
    ∀ st : SegState, st.current_section_id = none →
      (∀ b ∈ ms, section_pattern_match b = none) →
      runBlocks t st ms =
        ({ st with current_article := artFold st.current_article ms }, []) := by
  induction ms with
  | nil =>
    intro st hsid hnm
    rw [runBlocks_nil]
    rfl
  | cons b ms ih =>
    intro st hsid hnm
    by_cases hart : isArticleHeader b = true
    · rw [runBlocks_cons, stepBlock_article hart]
      dsimp only
      rw [ih { st with current_article := b } hsid
        (fun x hx => hnm x (List.mem_cons_of_mem b hx))]
      rw [artFold_cons, if_pos hart]
      rfl
    · have hartf : isArticleHeader b = false := by
        cases h : isArticleHeader b
        · rfl
        · exact absurd h hart
      rw [runBlocks_cons,
        stepBlock_cont_none hartf (hnm b (List.mem_cons_self b ms)) hsid]
      dsimp only
      rw [ih st hsid (fun x hx => hnm x (List.mem_cons_of_mem b hx))]
      rw [artFold_cons, if_neg (by simp [hart])]
      rfl

lemma runBlocks_nomatch_open (t : String) (ms : List String) :
    ∀ (st : SegState) (i : String), st.current_section_id = some i → i ≠ "" →
      (∀ b ∈ ms, section_pattern_match b = none) →
      runBlocks t st ms =
        ({ current_article := artFold st.current_article ms,
           current_section_id := some i,
           current_buffer := st.current_buffer ++ contFilter ms }, []) := by
  induction ms with
  | nil =>
    intro st i hsid hine hnm
    rw [runBlocks_nil]
    cases st with
    | mk a0 sid0 buf0 =>
      simp only at hsid
      rw [hsid]
      simp [contFilter_nil, artFold]
  | cons b ms ih =>
    intro st i hsid hine hnm
    by_cases hart : isArticleHeader b = true
    · rw [runBlocks_cons, stepBlock_article hart]
      dsimp only
      rw [ih { st with current_article := b } i hsid hine
        (fun x hx => hnm x (List.mem_cons_of_mem b hx))]
      rw [artFold_cons, if_pos hart, contFilter_cons_article ms hart]
      rfl
    · have hartf : isArticleHeader b = false := by
        cases h : isArticleHeader b
        · rfl
        · exact absurd h hart
      by_cases hmeta : isMetadata b = true
      · rw [runBlocks_cons,
          stepBlock_cont_meta hartf (hnm b (List.mem_cons_self b ms)) hsid
            hine hmeta]
        dsimp only
        rw [ih st i hsid hine (fun x hx => hnm x (List.mem_cons_of_mem b hx))]
        rw [artFold_cons, if_neg (by simp [hart]), contFilter_cons_meta ms hmeta]
        rfl
      · have hmetaf : isMetadata b = false := by
          cases h : isMetadata b
          · rfl
          · exact absurd h hmeta
        rw [runBlocks_cons,
          stepBlock_cont_app hartf (hnm b (List.mem_cons_self b ms)) hsid
            hine hmetaf]
        dsimp only
        rw [ih { st with current_buffer := st.current_buffer ++ [b] } i hsid
          hine (fun x hx => hnm x (List.mem_cons_of_mem b hx))]
        rw [artFold_cons, if_neg (by simp [hart]),
          contFilter_cons_keep ms hartf hmetaf]
        simp [List.append_assoc]

lemma getElem_append_len {α : Type} (l1 l2 : List α) :
    (l1 ++ l2)[l1.length]? = l2[0]? := by
  induction l1 with
  | nil => simp
  | cons x l1 ih => simpa using ih

lemma getLast_concat {α : Type} (l : List α) (a : α) :
    (l ++ [a]).getLast? = some a := by
  induction l with
  | nil => rfl
  | cons x l ih =>
    rw [List.cons_append, List.getLast?_cons, ih]
    cases l <;> rfl

/-- C2: on title "T" and blocks ["ARTICLE 1", "18-1-101. Foo.", "More body.",
"18-1-102. Bar."], the segmenter returns exactly the records
("T","ARTICLE 1","18-1-101","18-1-101. Foo.\nMore body.") and
("T","ARTICLE 1","18-1-102","18-1-102. Bar."), in that order. -/
theorem c2_concrete_example :
    parse_crs_blocks "T"
        ["ARTICLE 1", "18-1-101. Foo.", "More body.", "18-1-102. Bar."] =
      [⟨"T", "ARTICLE 1", "18-1-101", "18-1-101. Foo.\nMore body."⟩,
       ⟨"T", "ARTICLE 1", "18-1-102", "18-1-102. Bar."⟩] := by
  decide

/-- C3: the segmenter is a total function (it never throws), it returns the
empty record list on the empty block sequence, and it returns the empty
record list on any block sequence in which no block matches the
section-header pattern. -/
theorem c3_no_header_empty_output (t : String) :
    parse_crs_blocks t [] = [] ∧
    ∀ bs : List String, (∀ b ∈ bs, section_pattern_match b = none) →
      parse_crs_blocks t bs = [] := by
  constructor
  · rfl
  · intro bs h
    rw [parse_eq, runBlocks_no_match t bs initState rfl h]
    rfl

/-- Witness for C3 at a concrete input with no section-header block. -/
theorem c3_no_header_empty_output_witness :
    parse_crs_blocks "T" ["no section header here", "ARTICLE 5"] = [] :=
  (c3_no_header_empty_output "T").2 ["no section header here", "ARTICLE 5"]
    (by decide)

/-- C4: for every input block sequence, the number of emitted records is at
most the number of blocks matching the section-header pattern. -/
theorem c4_records_le_headers (t : String) (bs : List String) :
    (parse_crs_blocks t bs).length ≤
      (bs.filter fun b => (section_pattern_match b).isSome).length := by
  have h := congrArg List.length (parse_ids t bs)
  rw [List.length_map] at h
  rw [h, countMatches_filterMap]

/-- C5: the output records, projected to their section identifiers, are
exactly the capture groups of the pattern-matching blocks in input order:
output order equals section-open order equals the order in which the
section headers (first occurrences of the identifiers) appear in the
input. -/
theorem c5_output_order (t : String) (bs : List String) :
    (parse_crs_blocks t bs).map SectionRecord.section_id =
      bs.filterMap section_pattern_match :=
  parse_ids t bs

/-- C8: the query-time embedding function returns None exactly on absent or
empty input, and on non-empty input returns the serialized vector produced
by the embedding model. -/
theorem c8_embed_text (dumps : List Float → String)
    (enc : String → List Float) :
    embed_text dumps enc none = none ∧
    embed_text dumps enc (some "") = none ∧
    ∀ s : String, s ≠ "" →
      embed_text dumps enc (some s) = some (dumps (enc s)) := by
  refine ⟨rfl, by simp [embed_text], fun s hs => by simp [embed_text, hs]⟩

/-- Witness for C8 at a concrete model, serializer and input. -/
theorem c8_embed_text_witness :
    embed_text (fun _ => "[]") (fun _ => ([] : List Float)) (some "hi") =
      some "[]" :=
  (c8_embed_text (fun _ => "[]") (fun _ => ([] : List Float))).2.2 "hi"
    (by decide)

/-- Counterexample to C6 as stated: in ["1-1-1. X", "ARTICLE 1"] the section
header (block 0) precedes the only article-header block (block 1), yet the
emitted record carries "ARTICLE 1", not the sentinel "General Provisions":
the label is read when the record is emitted, not when the section
opens. -/
theorem c6_counterexample :
    parse_crs_blocks "T" ["1-1-1. X", "ARTICLE 1"] =
      [⟨"T", "ARTICLE 1", "1-1-1", "1-1-1. X"⟩] ∧
    ("ARTICLE 1" : String) ≠ "General Provisions" := by
  decide

/-- Counterexample to C9 as stated: on the single block " 1-1-1. X" (leading
space permitted by the pattern) the emitted content is the stripped text
"1-1-1. X", which does not begin with the full text of the opening block
(taking the first 9 characters of the content does not give the block). -/
theorem c9_counterexample :
    (parse_crs_blocks "T" [" 1-1-1. X"]).map SectionRecord.content =
      ["1-1-1. X"] ∧
    "1-1-1. X".data.take " 1-1-1. X".data.length ≠ " 1-1-1. X".data := by
  decide

/-- C9 amended: every emitted record's content begins with the stripped
text of the block that opened the section and is never empty (the buffer is
initialized with the header block, which contains the identifier's digits);
consequently the mid-stream empty-content filter never drops a section: the
number of records always equals the number of pattern-matching blocks. -/
theorem c9_content_nonempty (t : String) (bs : List String) :
    (∀ r ∈ parse_crs_blocks t bs,
      r.content ≠ "" ∧
      ∃ hb, hb ∈ bs ∧ section_pattern_match hb = some r.section_id ∧
        ∃ u, r.content = pyStrip hb ++ u) ∧
    (parse_crs_blocks t bs).length =
      (bs.filter fun b => (section_pattern_match b).isSome).length := by
  constructor
  · intro r hr
    obtain ⟨-, h2, h3, -⟩ := parse_records t bs r hr
    exact ⟨h2, h3⟩
  · have h := congrArg List.length (parse_ids t bs)
    rw [List.length_map] at h
    rw [h, countMatches_filterMap]

/-- Witness for C9 (amended) at a concrete record of a concrete run. -/
theorem c9_content_nonempty_witness :
    (⟨"T", "General Provisions", "1-1-1", "1-1-1. Y"⟩ : SectionRecord).content
        ≠ "" ∧
    ∃ hb, hb ∈ ["1-1-1. Y"] ∧
      section_pattern_match hb =
        some (⟨"T", "General Provisions", "1-1-1",
          "1-1-1. Y"⟩ : SectionRecord).section_id ∧
      ∃ u, (⟨"T", "General Provisions", "1-1-1",
          "1-1-1. Y"⟩ : SectionRecord).content = pyStrip hb ++ u :=
  (c9_content_nonempty "T" ["1-1-1. Y"]).1
    ⟨"T", "General Provisions", "1-1-1", "1-1-1. Y"⟩ (by decide)

/-- C7: the first capture group of a successful section-pattern match is
the dash-separated digit core with its optional dotted suffix - no
surrounding whitespace, no trailing period; the newly opened section stores
exactly this group as its identifier and resets the buffer to the matching
block; records carry these identifiers verbatim; and "18-1-102.5." yields
"18-1-102.5". -/
theorem c7_capture_group :
    (∀ s g : String, section_pattern_match s = some g →
      (∃ d1 d2 d3 tail,
        d1 ≠ [] ∧ d2 ≠ [] ∧ d3 ≠ [] ∧
        (∀ c ∈ d1, c.isDigit = true) ∧ (∀ c ∈ d2, c.isDigit = true) ∧
        (∀ c ∈ d3, c.isDigit = true) ∧
        g.data = d1 ++ '-' :: (d2 ++ '-' :: (d3 ++ tail)) ∧
        (tail = [] ∨ ∃ d4, d4 ≠ [] ∧ (∀ c ∈ d4, c.isDigit = true) ∧
          tail = '.' :: d4)) ∧
      (∀ (t : String) (st : SegState),
        (stepBlock t st s).1.current_section_id = some g ∧
        (stepBlock t st s).1.current_buffer = [s])) ∧
    (∀ (t : String) (bs : List String),
      (parse_crs_blocks t bs).map SectionRecord.section_id =
        bs.filterMap section_pattern_match) ∧
    section_pattern_match "18-1-102.5." = some "18-1-102.5" := by
  refine ⟨?_, fun t bs => parse_ids t bs, by decide⟩
  intro s g hm
  constructor
  · obtain ⟨gl, hgl, rfl⟩ := match_mk hm
    obtain ⟨d1, d2, d3, tail, h1, h2, h3, h4, h5, h6, h7, h8⟩ :=
      sectionMatchChars_shape hgl
    exact ⟨d1, d2, d3, tail, h1, h2, h3, h4, h5, h6, h7, h8⟩
  · intro t st
    rw [stepBlock_open hm]
    exact ⟨rfl, rfl⟩

/-- Witness for C7 at the concrete block "18-1-102.5.". -/
theorem c7_capture_group_witness :
    (stepBlock "T" initState "18-1-102.5.").1.current_section_id =
        some "18-1-102.5" ∧
    (stepBlock "T" initState "18-1-102.5.").1.current_buffer =
        ["18-1-102.5."] :=
  (c7_capture_group.1 "18-1-102.5." "18-1-102.5" (by decide)).2 "T" initState

lemma parse_decomp (t : String) (pre rest : List String) :
    parse_crs_blocks t (pre ++ rest) =
      (runBlocks t initState pre).2 ++
        ((runBlocks t (runBlocks t initState pre).1 rest).2 ++
          flushFinal t (runBlocks t (runBlocks t initState pre).1 rest).1) := by
  rw [parse_eq, runBlocks_append t pre rest initState]
  dsimp only
  rw [List.append_assoc]

lemma getElem_append_mid {α : Type} (l1 l2 l3 : List α) (n : Nat)
    (h : n = l1.length) : ((l1 ++ l2) ++ l3)[n]? = (l2 ++ l3)[0]? := by
  subst h
  rw [List.append_assoc, getElem_append_len]

/-- Counterexample to C1 as stated: in ["1-1-1. X.", "Source: L. 2020",
"2-2-2. Y."] the section "1-1-1" has only a metadata-prefixed continuation
block, closes mid-stream at "2-2-2. Y.", and nevertheless IS emitted, with
the non-empty content "1-1-1. X." (the buffer was initialized with the
header block), contradicting both the empty-content and the no-record
parts of the claim. -/
theorem c1_counterexample :
    parse_crs_blocks "T" ["1-1-1. X.", "Source: L. 2020", "2-2-2. Y."] =
      [⟨"T", "General Provisions", "1-1-1", "1-1-1. X."⟩,
       ⟨"T", "General Provisions", "2-2-2", "2-2-2. Y."⟩] ∧
    ("1-1-1. X." : String) ≠ "" := by
  decide

/-- C1 amended: a section whose continuation blocks are all
metadata-prefixed closes with content equal to the stripped text of its
header block, which is never empty; if it is the last open section at end
of input, the flushed record is that record, and if it closes mid-stream
(a later section header appears) that record IS emitted, at the position
equal to the number of pattern-matching blocks before the header. -/
theorem c1_metadata_only_section (t : String) (pre : List String)
    (hb i : String) (ms : List String) (cb j : String)
    (hm : section_pattern_match hb = some i)
    (hms : ∀ m ∈ ms, isMetadata m = true)
    (hcb : section_pattern_match cb = some j) :
    pyStrip hb ≠ "" ∧
    (parse_crs_blocks t (pre ++ hb :: ms)).getLast? =
      some ⟨t, artFold "General Provisions" pre, i, pyStrip hb⟩ ∧
    (parse_crs_blocks t (pre ++ hb :: (ms ++ [cb])))[
        (pre.filterMap section_pattern_match).length]? =
      some ⟨t, artFold "General Provisions" pre, i, pyStrip hb⟩ := by
  obtain ⟨hG0, hart0, hids0, -, -⟩ :=
    runBlocks_master t pre initState GoodState_init
  have hnm : ∀ m ∈ ms, section_pattern_match m = none :=
    fun m hm' => meta_no_match (hms m hm')
  have hna : ∀ m ∈ ms, isArticleHeader m = false :=
    fun m hm' => meta_not_article (hms m hm')
  have hstrip := (content_of_buffer hb [] hm).2.1
  have hlen : ((runBlocks t initState pre).2 ++
      closeRecs t (runBlocks t initState pre).1).length =
      (pre.filterMap section_pattern_match).length := by
    rw [List.length_append, closeRecs_good hG0, List.length_map]
    have h := congrArg List.length hids0
    simp only [List.length_append, List.length_map] at h
    simp only [pendingIds, initState] at h
    simpa using h
  refine ⟨hstrip, ?_, ?_⟩
  · rw [parse_decomp t pre (hb :: ms), runBlocks_cons, stepBlock_open hm]
    dsimp only
    rw [runBlocks_nomatch_open t ms _ i rfl (match_g_ne hm) hnm]
    dsimp only
    rw [contFilter_all_meta hms, artFold_no_article _ hna]
    have hG2 : GoodState ⟨(runBlocks t initState pre).1.current_article,
        some i, [hb] ++ []⟩ := Or.inr ⟨i, hb, [], rfl, rfl, hm⟩
    rw [flushFinal_good hG2]
    dsimp only [pendingIds]
    simp only [List.map_cons, List.map_nil, List.nil_append]
    rw [← List.append_assoc, getLast_concat, hart0]
    rfl
  · rw [parse_decomp t pre (hb :: (ms ++ [cb])), runBlocks_cons,
      stepBlock_open hm]
    dsimp only
    rw [runBlocks_append t ms [cb] _]
    rw [runBlocks_nomatch_open t ms _ i rfl (match_g_ne hm) hnm]
    dsimp only
    rw [contFilter_all_meta hms, artFold_no_article _ hna]
    rw [runBlocks_cons, stepBlock_open hcb]
    dsimp only
    rw [runBlocks_nil]
    dsimp only
    have hG2 : GoodState ⟨(runBlocks t initState pre).1.current_article,
        some i, [hb] ++ []⟩ := Or.inr ⟨i, hb, [], rfl, rfl, hm⟩
    rw [closeRecs_good hG2]
    dsimp only [pendingIds]
    simp only [List.map_cons, List.map_nil, List.nil_append]
    rw [← List.append_assoc, ← List.append_assoc, ← hlen,
      getElem_append_mid _ _ _ _ rfl, hart0]
    simp only [List.append_nil, List.singleton_append, List.getElem?_cons_zero]
    rfl

/-- Witness for C1 (amended) at a concrete metadata-only section. -/
theorem c1_metadata_only_section_witness :
    pyStrip "1-1-1. X." ≠ "" ∧
    (parse_crs_blocks "T" ["1-1-1. X.", "Source: L. 2020"]).getLast? =
      some ⟨"T", "General Provisions", "1-1-1", "1-1-1. X."⟩ ∧
    (parse_crs_blocks "T" ["1-1-1. X.", "Source: L. 2020", "2-2-2. Y."])[0]? =
      some ⟨"T", "General Provisions", "1-1-1", "1-1-1. X."⟩ :=
  c1_metadata_only_section "T" [] "1-1-1. X." "1-1-1" ["Source: L. 2020"]
    "2-2-2. Y." "2-2-2" (by decide) (by decide) (by decide)

lemma closed_prefix_length (t : String) (pre : List String) :
    ((runBlocks t initState pre).2 ++
        closeRecs t (runBlocks t initState pre).1).length =
      (pre.filterMap section_pattern_match).length := by
  obtain ⟨hG0, -, hids0, -, -⟩ :=
    runBlocks_master t pre initState GoodState_init
  rw [List.length_append, closeRecs_good hG0, List.length_map]
  have h := congrArg List.length hids0
  simp only [List.length_append, List.length_map] at h
  simp only [pendingIds, initState] at h
  simpa using h

/-- C10: when an article-header block appears between a section's opening
header and its close - whether the section closes at end of input or
mid-stream at the next section header `cb` - the emitted record for that
section carries the new article label `a` (the last article header seen
before the close), not the label current when the section opened. -/
theorem c10_close_time_article (t : String) (pre : List String)
    (hb i : String) (m1 : List String) (a : String) (m2 : List String)
    (cb j : String)
    (hm : section_pattern_match hb = some i)
    (ha : isArticleHeader a = true)
    (h1 : ∀ b ∈ m1, section_pattern_match b = none)
    (h2 : ∀ b ∈ m2, section_pattern_match b = none ∧
      isArticleHeader b = false)
    (hcb : section_pattern_match cb = some j) :
    (∃ c, (parse_crs_blocks t (pre ++ hb :: (m1 ++ a :: m2))).getLast? =
      some ⟨t, a, i, c⟩) ∧
    (∃ c, (parse_crs_blocks t (pre ++ hb :: ((m1 ++ a :: m2) ++ [cb])))[
        (pre.filterMap section_pattern_match).length]? =
      some ⟨t, a, i, c⟩) := by
  have hnm : ∀ b ∈ m1 ++ a :: m2, section_pattern_match b = none := by
    intro b hbm
    rcases List.mem_append.mp hbm with h | h
    · exact h1 b h
    · rcases List.mem_cons.mp h with rfl | h'
      · exact article_no_match ha
      · exact (h2 b h').1
  constructor
  · rw [parse_decomp t pre (hb :: (m1 ++ a :: m2)), runBlocks_cons,
      stepBlock_open hm]
    dsimp only
    rw [runBlocks_nomatch_open t (m1 ++ a :: m2) _ i rfl (match_g_ne hm) hnm]
    dsimp only
    rw [artFold_after_article ha (fun b hbm => (h2 b hbm).2) m1]
    have hG2 : GoodState ⟨a, some i, [hb] ++ contFilter (m1 ++ a :: m2)⟩ :=
      Or.inr ⟨i, hb, contFilter (m1 ++ a :: m2), rfl, rfl, hm⟩
    rw [flushFinal_good hG2]
    dsimp only [pendingIds]
    simp only [List.map_cons, List.map_nil, List.nil_append]
    refine ⟨pyStrip (joinNL ([hb] ++ contFilter (m1 ++ a :: m2))), ?_⟩
    rw [← List.append_assoc, getLast_concat]
  · rw [parse_decomp t pre (hb :: ((m1 ++ a :: m2) ++ [cb])), runBlocks_cons,
      stepBlock_open hm]
    dsimp only
    rw [runBlocks_append t (m1 ++ a :: m2) [cb] _]
    rw [runBlocks_nomatch_open t (m1 ++ a :: m2) _ i rfl (match_g_ne hm) hnm]
    dsimp only
    rw [artFold_after_article ha (fun b hbm => (h2 b hbm).2) m1]
    rw [runBlocks_cons, stepBlock_open hcb]
    dsimp only
    rw [runBlocks_nil]
    dsimp only
    have hG2 : GoodState ⟨a, some i, [hb] ++ contFilter (m1 ++ a :: m2)⟩ :=
      Or.inr ⟨i, hb, contFilter (m1 ++ a :: m2), rfl, rfl, hm⟩
    rw [closeRecs_good hG2]
    dsimp only [pendingIds]
    simp only [List.map_cons, List.map_nil, List.nil_append]
    refine ⟨pyStrip (joinNL ([hb] ++ contFilter (m1 ++ a :: m2))), ?_⟩
    rw [← List.append_assoc, ← List.append_assoc, ← closed_prefix_length t pre,
      getElem_append_mid _ _ _ _ rfl]
    simp only [List.singleton_append, List.getElem?_cons_zero]

/-- Witness for C10 at concrete inputs where the article header arrives
after the section opened, for both the end-of-input close and the
mid-stream close. -/
theorem c10_close_time_article_witness :
    (∃ c, (parse_crs_blocks "T" ["1-1-1. X", "ARTICLE 2"]).getLast? =
      some ⟨"T", "ARTICLE 2", "1-1-1", c⟩) ∧
    (∃ c, (parse_crs_blocks "T" ["1-1-1. X", "ARTICLE 2", "2-2-2. Z."])[0]? =
      some ⟨"T", "ARTICLE 2", "1-1-1", c⟩) :=
  c10_close_time_article "T" [] "1-1-1. X" "1-1-1" [] "ARTICLE 2" []
    "2-2-2. Z." "2-2-2" (by decide) (by decide) (by simp) (by simp)
    (by decide)

lemma artFold_append (a : String) (xs ys : List String) :
    artFold a (xs ++ ys) = artFold (artFold a xs) ys := by
  induction xs generalizing a with
  | nil => rfl
  | cons b xs ih =>
    rw [List.cons_append, artFold_cons, artFold_cons]
    exact ih _

/-- C6 amended: every emitted record carries the article label current at
close time: the fold of the article-header updates, starting from the
sentinel "General Provisions", over all blocks strictly before the block
that closes the section - the next section header `h2` for the record of
`h1`'s section, the end of input for the flushed record of `h2`'s section.
Consequently the label persists across consecutive sections while no new
article-header block appears (both records then carry the label current
when `h1` opened), and on an input with no article-header block at all
every record carries the sentinel. -/
theorem c6_close_time_article_label (t : String) (pre : List String)
    (h1 i1 : String) (m1 : List String) (h2 i2 : String) (m2 : List String)
    (hm1 : section_pattern_match h1 = some i1)
    (hm2 : section_pattern_match h2 = some i2)
    (hn1 : ∀ b ∈ m1, section_pattern_match b = none)
    (hn2 : ∀ b ∈ m2, section_pattern_match b = none) :
    (∃ c1, (parse_crs_blocks t (pre ++ h1 :: (m1 ++ h2 :: m2)))[
        (pre.filterMap section_pattern_match).length]? =
      some ⟨t, artFold "General Provisions" (pre ++ h1 :: m1), i1, c1⟩) ∧
    (∃ c2, (parse_crs_blocks t (pre ++ h1 :: (m1 ++ h2 :: m2))).getLast? =
      some ⟨t, artFold "General Provisions" (pre ++ h1 :: (m1 ++ h2 :: m2)),
        i2, c2⟩) ∧
    ((∀ b ∈ m1 ++ h2 :: m2, isArticleHeader b = false) →
      ∃ c1 c2,
        (parse_crs_blocks t (pre ++ h1 :: (m1 ++ h2 :: m2)))[
            (pre.filterMap section_pattern_match).length]? =
          some ⟨t, artFold "General Provisions" pre, i1, c1⟩ ∧
        (parse_crs_blocks t (pre ++ h1 :: (m1 ++ h2 :: m2))).getLast? =
          some ⟨t, artFold "General Provisions" pre, i2, c2⟩) ∧
    (∀ bs : List String, (∀ b ∈ bs, isArticleHeader b = false) →
      ∀ r ∈ parse_crs_blocks t bs, r.article = "General Provisions") := by
  obtain ⟨hG0, hart0, hids0, -, -⟩ :=
    runBlocks_master t pre initState GoodState_init
  have hart0' : (runBlocks t initState pre).1.current_article =
      artFold "General Provisions" pre := hart0
  have hart1 : artFold "General Provisions" (pre ++ h1 :: m1) =
      artFold (runBlocks t initState pre).1.current_article m1 := by
    rw [artFold_append, artFold_cons,
      if_neg (by simp [not_article_of_match hm1]), ← hart0']
  have hart2 : artFold "General Provisions" (pre ++ h1 :: (m1 ++ h2 :: m2)) =
      artFold (artFold (runBlocks t initState pre).1.current_article m1)
        m2 := by
    rw [artFold_append, artFold_cons,
      if_neg (by simp [not_article_of_match hm1]), artFold_append,
      artFold_cons, if_neg (by simp [not_article_of_match hm2]), ← hart0']
  have heq : parse_crs_blocks t (pre ++ h1 :: (m1 ++ h2 :: m2)) =
      (((runBlocks t initState pre).2 ++
          closeRecs t (runBlocks t initState pre).1) ++
        [⟨t, artFold (runBlocks t initState pre).1.current_article m1, i1,
          pyStrip (joinNL ([h1] ++ contFilter m1))⟩]) ++
      [⟨t, artFold (artFold (runBlocks t initState pre).1.current_article m1)
          m2, i2, pyStrip (joinNL ([h2] ++ contFilter m2))⟩] := by
    rw [parse_decomp t pre (h1 :: (m1 ++ h2 :: m2)), runBlocks_cons,
      stepBlock_open hm1]
    dsimp only
    rw [runBlocks_append t m1 (h2 :: m2) _]
    rw [runBlocks_nomatch_open t m1 _ i1 rfl (match_g_ne hm1) hn1]
    dsimp only
    rw [runBlocks_cons, stepBlock_open hm2]
    dsimp only
    rw [runBlocks_nomatch_open t m2 _ i2 rfl (match_g_ne hm2) hn2]
    dsimp only
    have hG2 : GoodState
        ⟨artFold (runBlocks t initState pre).1.current_article m1, some i1,
          [h1] ++ contFilter m1⟩ :=
      Or.inr ⟨i1, h1, contFilter m1, rfl, rfl, hm1⟩
    rw [closeRecs_good hG2]
    have hG4 : GoodState
        ⟨artFold (artFold (runBlocks t initState pre).1.current_article m1)
            m2, some i2, [h2] ++ contFilter m2⟩ :=
      Or.inr ⟨i2, h2, contFilter m2, rfl, rfl, hm2⟩
    rw [flushFinal_good hG4]
    dsimp only [pendingIds]
    simp [List.append_assoc]
  have hmid : (parse_crs_blocks t (pre ++ h1 :: (m1 ++ h2 :: m2)))[
      (pre.filterMap section_pattern_match).length]? =
      some ⟨t, artFold (runBlocks t initState pre).1.current_article m1, i1,
        pyStrip (joinNL ([h1] ++ contFilter m1))⟩ := by
    rw [heq, ← closed_prefix_length t pre, getElem_append_mid _ _ _ _ rfl]
    rfl
  have hlast : (parse_crs_blocks t (pre ++ h1 :: (m1 ++ h2 :: m2))).getLast?
      = some ⟨t,
        artFold (artFold (runBlocks t initState pre).1.current_article m1) m2,
        i2, pyStrip (joinNL ([h2] ++ contFilter m2))⟩ := by
    rw [heq, getLast_concat]
  refine ⟨⟨_, by rw [hart1]; exact hmid⟩, ⟨_, by rw [hart2]; exact hlast⟩,
    ?_, ?_⟩
  · intro hna
    have hnam1 : ∀ b ∈ m1, isArticleHeader b = false :=
      fun b hb => hna b (List.mem_append.mpr (Or.inl hb))
    have hnah2 : isArticleHeader h2 = false :=
      hna h2 (List.mem_append.mpr (Or.inr (List.mem_cons_self h2 m2)))
    have hnam2 : ∀ b ∈ m2, isArticleHeader b = false :=
      fun b hb =>
        hna b (List.mem_append.mpr (Or.inr (List.mem_cons_of_mem h2 hb)))
    have e1 : artFold "General Provisions" (pre ++ h1 :: m1) =
        artFold "General Provisions" pre := by
      rw [artFold_append, artFold_cons,
        if_neg (by simp [not_article_of_match hm1]),
        artFold_no_article _ hnam1]
    have e2 : artFold "General Provisions" (pre ++ h1 :: (m1 ++ h2 :: m2)) =
        artFold "General Provisions" pre := by
      rw [artFold_append, artFold_cons,
        if_neg (by simp [not_article_of_match hm1]), artFold_append,
        artFold_cons, if_neg (by simp [hnah2]), artFold_no_article _ hnam2,
        artFold_no_article _ hnam1]
    refine ⟨pyStrip (joinNL ([h1] ++ contFilter m1)),
      pyStrip (joinNL ([h2] ++ contFilter m2)), ?_, ?_⟩
    · rw [← e1, hart1]
      exact hmid
    · rw [← e2, hart2]
      exact hlast
  · intro bs hno r hr
    rcases (parse_records t bs r hr).2.2.2 with h | ⟨a, ha1, ha2, -⟩
    · exact h
    · rw [hno a ha1] at ha2
      cases ha2

/-- Witness for C6 (amended) at a concrete two-section input, exercising
the close-time labels, the persistence conjunct and the sentinel case. -/
theorem c6_close_time_article_label_witness :
    (∃ c1, (parse_crs_blocks "T"
        ["1-1-1. A", "body one", "2-2-2. B", "body two"])[0]? =
      some ⟨"T", "General Provisions", "1-1-1", c1⟩) ∧
    (∃ c2, (parse_crs_blocks "T"
        ["1-1-1. A", "body one", "2-2-2. B", "body two"]).getLast? =
      some ⟨"T", "General Provisions", "2-2-2", c2⟩) ∧
    (∃ c1 c2,
      (parse_crs_blocks "T"
          ["1-1-1. A", "body one", "2-2-2. B", "body two"])[0]? =
        some ⟨"T", "General Provisions", "1-1-1", c1⟩ ∧
      (parse_crs_blocks "T"
          ["1-1-1. A", "body one", "2-2-2. B", "body two"]).getLast? =
        some ⟨"T", "General Provisions", "2-2-2", c2⟩) ∧
    (⟨"T", "General Provisions", "3-3-3",
        "3-3-3. C"⟩ : SectionRecord).article = "General Provisions" := by
  have h := c6_close_time_article_label "T" [] "1-1-1. A" "1-1-1"
    ["body one"] "2-2-2. B" "2-2-2" ["body two"] (by decide) (by decide)
    (by decide) (by decide)
  exact ⟨h.1, h.2.1, h.2.2.1 (by decide),
    h.2.2.2 ["3-3-3. C"] (by decide)
      ⟨"T", "General Provisions", "3-3-3", "3-3-3. C"⟩ (by decide)⟩
